import Mathlib

/-!
Shallow embedding of the `qiskit-transpiler-tools` repository
(`src/qiskit_transpiler_tools/transpiler.py` and
`src/qiskit_transpiler_tools/dd_passmanager.py`).

External collaborators (the vendor `compiler.transpile` routine, the
mapomatic layout utilities, `PassManager.run`) are modelled as opaque
oracle functions collected in an `Externals` record; qubit circuits are
modelled by the two observations this repository actually makes of them
(`depth()` and `count_ops()`).  The repository's own fallible operations
(the seed-length `assert`, Python's `min([])`, the `scores[0][0]` and
`trans_circs[0]` subscripts, and the exceptions that
`InstructionDurations.from_backend` / `configuration().timing_constraints[...]`
may raise) are modelled with `Except`.
-/

/-- Model of a qiskit `QuantumCircuit` restricted to the observations this
repository makes of one: its `depth()` and its `count_ops()` dictionary
(gate name to occurrence count). -/
structure QuantumCircuit where
  depth : Nat
  count_ops : List (String × Nat)
deriving Repr, DecidableEq, Inhabited

/-- `transpile_cost_depthcnot` from `transpiler.py` (lines 206-229):
`num_cnots` is the `'cx'` entry of `count_ops()` when present, else `0`;
the cost is `weight_depth * depth + weight_cnot * num_cnots`, with default
weights `1.` and `20.`. -/
def transpile_cost_depthcnot (circuit : QuantumCircuit)
    (weight_depth : ℚ := 1) (weight_cnot : ℚ := 20) : ℚ :=
  let num_cnots : Nat :=
    match circuit.count_ops.lookup "cx" with
    | some n => n
    | none => 0
  weight_depth * circuit.depth + weight_cnot * num_cnots

/-! ## Model of `dd_passmanager.py` -/

/-- Model of the qiskit gate objects used here; the source only ever builds
`XGate()`. -/
inductive Gate where
  | XGate : Gate
deriving Repr, DecidableEq

/-- Model of `backend.configuration()`: the `timing_constraints` dictionary
(string keys to integer values). -/
structure BackendConfiguration where
  timing_constraints : List (String × Nat)
deriving Repr, DecidableEq

/-- Model of an `IBMQBackend` as seen by this repository, parametrised by the
opaque type `Dur` of instruction-duration models: the outcome of
`InstructionDurations.from_backend(backend)` (which may raise, e.g. on
missing backend data, modelled by `Except.error` with the exception
message), and the `configuration()` object. -/
structure IBMQBackend (Dur : Type) where
  instruction_durations : Except String Dur
  configuration : BackendConfiguration

/-- `InstructionDurations.from_backend(backend)`: the (possibly failing)
duration-model lookup. -/
def InstructionDurations.from_backend {Dur : Type} (backend : IBMQBackend Dur) :
    Except String Dur :=
  backend.instruction_durations

/-- Model of the qiskit transpiler passes instantiated by
`dd_passmanager.py`: an ALAP schedule-analysis pass built from a duration
model, and a dynamical-decoupling padding pass built from a duration model,
a gate sequence and a pulse alignment. -/
inductive TranspilerPass (Dur : Type) where
  | ALAPScheduleAnalysis (durations : Dur)
  | PadDynamicalDecoupling (durations : Dur) (dd_sequence : List Gate)
      (pulse_alignment : Nat)
deriving Repr, DecidableEq

/-- Model of a qiskit `PassManager`: the ordered list of passes it was
constructed from. -/
structure PassManager (Dur : Type) where
  passes : List (TranspilerPass Dur)
deriving Repr, DecidableEq

/-- The class `PassManager_DD_ALAP_XX` of `dd_passmanager.py`: holds the
backend given at construction. -/
structure PassManager_DD_ALAP_XX (Dur : Type) where
  backend : IBMQBackend Dur

/-- `PassManager_DD_ALAP_XX.get_pass_manager` (`dd_passmanager.py` lines
47-63): look up the duration model from the backend, fix the decoupling
sequence `[XGate(), XGate()]`, read
`configuration().timing_constraints['pulse_alignment']` (a missing key
raises `KeyError`), and assemble the two-stage pass manager. -/
def PassManager_DD_ALAP_XX.get_pass_manager {Dur : Type}
    (self : PassManager_DD_ALAP_XX Dur) : Except String (PassManager Dur) :=
  match InstructionDurations.from_backend self.backend with
  | Except.error e => Except.error e
  | Except.ok durations =>
    let dd_sequence : List Gate := [Gate.XGate, Gate.XGate]
    match self.backend.configuration.timing_constraints.lookup "pulse_alignment" with
    | none => Except.error "KeyError: pulse_alignment"
    | some pulse_alignment =>
      Except.ok
        { passes := [TranspilerPass.ALAPScheduleAnalysis durations,
                     TranspilerPass.PadDynamicalDecoupling durations dd_sequence
                       pulse_alignment] }

/-! ## Model of `transpiler.py` -/

/-- The Python exceptions that `TranspilerSabreMapomaticDD.transpile` itself
can raise (beyond those propagated from collaborators, which carry their
message in `externalError`): the seed-length `assert` (AssertionError),
`min([])` (ValueError), and out-of-range subscripts (IndexError);
`ddPlanMissing` models the `AttributeError` of calling `.run` on `None`
(unreachable in the source). -/
inductive PipeErr where
  | assertionError : PipeErr
  | valueError : PipeErr
  | indexError : PipeErr
  | ddPlanMissing : PipeErr
  | externalError (msg : String) : PipeErr
deriving Repr, DecidableEq

/-- The `Union[QuantumCircuit, List[QuantumCircuit]]` argument and return
type of `transpile`. -/
inductive CircuitsU where
  | single (qc : QuantumCircuit)
  | many (qcs : List QuantumCircuit)
deriving Repr, DecidableEq

/-- Sequential fallible map over a list (a Python `for` loop building a
result list, aborting at the first raised exception). -/
def mapE {α β : Type} (f : α → Except PipeErr β) : List α → Except PipeErr (List β)
  | [] => Except.ok []
  | a :: as =>
    match f a with
    | Except.error e => Except.error e
    | Except.ok b =>
      match mapE f as with
      | Except.error e => Except.error e
      | Except.ok bs => Except.ok (b :: bs)

/-- The external collaborators invoked by `transpiler.py`, as oracle
functions.  `Dur` is the opaque duration-model type, `L` the opaque layout
type.  `compiler_transpile` is the vendor routine applied to one circuit
with one (optional) seed at a fixed backend and optimization level; the
batched call `compiler.transpile([qc]*K, backend, ..., seed_transpiler=seeds)`
is modelled as its element-wise application (run `i` pairing circuit `i`
with seed `i`).  `compiler_transpile_layout` is the vendor routine pinned to
an initial layout (as called in the mapomatic branch, with default
optimization level).  `pass_manager_run` is qiskit's `PassManager.run`. -/
structure Externals (Dur L : Type) where
  compiler_transpile : QuantumCircuit → IBMQBackend Dur → Nat → Option Int → QuantumCircuit
  compiler_transpile_layout : QuantumCircuit → IBMQBackend Dur → L → QuantumCircuit
  deflate_circuit : QuantumCircuit → QuantumCircuit
  matching_layouts : QuantumCircuit → IBMQBackend Dur → List L
  evaluate_layouts : QuantumCircuit → List L → IBMQBackend Dur →
    Option (QuantumCircuit → ℚ) → List (L × ℚ)
  pass_manager_run : PassManager Dur → QuantumCircuit → QuantumCircuit

/-- The class `TranspilerSabreMapomaticDD` of `transpiler.py`: the
constructor arguments stored in `__init__` (lines 84-103), with the Python
defaults. -/
structure TranspilerSabreMapomaticDD (Dur : Type) where
  backend : IBMQBackend Dur
  optimization_level : Nat := 0
  num_transpilations : Nat := 1
  seed_transpiler : Option (List (Option Int)) := none
  cost_transpile : Option (QuantumCircuit → ℚ) := none
  apply_mapomatic : Bool := false
  cost_mapomatic : Option (QuantumCircuit → ℚ) := none
  apply_dd : Bool := false
  dd_passmanager : Option (PassManager Dur) := none

/-- Lines 137-140 of `transpiler.py`: default the seed list to
`[None]*num_transpilations`; otherwise `assert len(seed_transpiler) >=
num_transpilations` (an `AssertionError` when violated). -/
def resolveSeeds {Dur : Type} (self : TranspilerSabreMapomaticDD Dur) :
    Except PipeErr (List (Option Int)) :=
  match self.seed_transpiler with
  | none => Except.ok (List.replicate self.num_transpilations (none : Option Int))
  | some seeds =>
    if seeds.length ≥ self.num_transpilations then Except.ok seeds
    else Except.error PipeErr.assertionError

/-- Lines 142-143 of `transpiler.py`: default the cost function to
`transpile_cost_depthcnot` (with its default weights). -/
def resolveCost {Dur : Type} (self : TranspilerSabreMapomaticDD Dur) :
    QuantumCircuit → ℚ :=
  match self.cost_transpile with
  | none => fun qc => transpile_cost_depthcnot qc
  | some f => f

/-- Lines 145-147 of `transpiler.py`: when `apply_dd` is set and no pass
manager was supplied, build one via
`PassManager_DD_ALAP_XX(self._backend).get_pass_manager()`; an exception
raised there propagates (as `externalError`). -/
def resolvePM {Dur : Type} (self : TranspilerSabreMapomaticDD Dur) :
    Except PipeErr (Option (PassManager Dur)) :=
  match self.apply_dd, self.dd_passmanager with
  | true, none =>
    match PassManager_DD_ALAP_XX.get_pass_manager { backend := self.backend } with
    | Except.error msg => Except.error (PipeErr.externalError msg)
    | Except.ok pm => Except.ok (some pm)
  | _, dd => Except.ok dd

/-- Line 153-156 of `transpiler.py`: the list of candidate circuits produced
by `compiler.transpile([qc]*num_transpilations, backend,
optimization_level=..., seed_transpiler=...)`, element-wise: run `i` pairs
copy `i` of the circuit with entry `i` of the seed list. -/
def runsFor {Dur L : Type} (ext : Externals Dur L) (backend : IBMQBackend Dur)
    (optimization_level num_transpilations : Nat)
    (seed_transpiler : List (Option Int)) (qc : QuantumCircuit) :
    List QuantumCircuit :=
  List.zipWith (fun c s => ext.compiler_transpile c backend optimization_level s)
    (List.replicate num_transpilations qc) seed_transpiler

/-- Lines 157-159 of `transpiler.py`: score every candidate with the cost
function, take `min(costs)` (`ValueError` on an empty list), and pick the
candidate at the first position whose cost equals the minimum
(`np.asarray(costs == min(costs)).nonzero()[0][0]`). -/
def selectBest (cost_transpile : QuantumCircuit → ℚ)
    (trans_qc : List QuantumCircuit) : Except PipeErr QuantumCircuit :=
  let costs := trans_qc.map cost_transpile
  match costs.min? with
  | none => Except.error PipeErr.valueError
  | some m =>
    let best_pos := costs.findIdx fun x => decide (x = m)
    Except.ok (trans_qc.getD best_pos default)

/-- Lines 172-180 of `transpiler.py`, for one working circuit: deflate it,
enumerate matching layouts, score them (`evaluate_layouts` returns the
scores sorted best first), take `scores[0][0]` as the best layout
(`IndexError` when the score list is empty), and re-transpile the deflated
circuit pinned to that layout. -/
def mapomaticStep {Dur L : Type} (ext : Externals Dur L)
    (backend : IBMQBackend Dur) (cost_mapomatic : Option (QuantumCircuit → ℚ))
    (qc : QuantumCircuit) : Except PipeErr QuantumCircuit :=
  let small_qc := ext.deflate_circuit qc
  let layouts := ext.matching_layouts small_qc backend
  let scores := ext.evaluate_layouts small_qc layouts backend cost_mapomatic
  match scores with
  | [] => Except.error PipeErr.indexError
  | (best_layout, _) :: _ =>
    Except.ok (ext.compiler_transpile_layout small_qc backend best_layout)

/-- Lines 162-180 of `transpiler.py`: the mapomatic branch.  The first loop
(lines 165-168) builds the list `deflated`, which is never read afterwards;
the second loop re-deflates each working circuit and performs the layout
selection. -/
def applyMapomaticStage {Dur L : Type} (self : TranspilerSabreMapomaticDD Dur)
    (ext : Externals Dur L) (trans_circs : List QuantumCircuit) :
    Except PipeErr (List QuantumCircuit) :=
  if self.apply_mapomatic then
    let deflated := trans_circs.map ext.deflate_circuit
    mapE (mapomaticStep ext self.backend self.cost_mapomatic) trans_circs
  else Except.ok trans_circs

/-- Lines 183-185 of `transpiler.py`: when `apply_dd` is set, run the (by
then necessarily present) pass manager on every circuit. -/
def applyDDStage {Dur L : Type} (self : TranspilerSabreMapomaticDD Dur)
    (ext : Externals Dur L) (dd_passmanager : Option (PassManager Dur))
    (trans_circs : List QuantumCircuit) : Except PipeErr (List QuantumCircuit) :=
  if self.apply_dd then
    match dd_passmanager with
    | some pm => Except.ok (trans_circs.map (ext.pass_manager_run pm))
    | none => Except.error PipeErr.ddPlanMissing
  else Except.ok trans_circs

/-- `TranspilerSabreMapomaticDD.transpile` (`transpiler.py` lines 106-192):
unify the input to a list, resolve the option defaults (seed list with its
length assert, cost function, lazily built DD pass manager), run the
repeated-seed transpile-and-select loop, then the optional mapomatic branch,
then the optional DD loop, and return in the shape of the input
(`trans_circs[0]` for a single-circuit input). -/
def TranspilerSabreMapomaticDD.transpile {Dur L : Type}
    (self : TranspilerSabreMapomaticDD Dur) (ext : Externals Dur L)
    (circuits : CircuitsU) : Except PipeErr CircuitsU :=
  let circuits_ : List QuantumCircuit :=
    match circuits with
    | CircuitsU.single qc => [qc]
    | CircuitsU.many qcs => qcs
  match resolveSeeds self with
  | Except.error e => Except.error e
  | Except.ok seed_transpiler =>
    let cost_transpile := resolveCost self
    match resolvePM self with
    | Except.error e => Except.error e
    | Except.ok dd_passmanager =>
      match mapE (fun qc => selectBest cost_transpile
          (runsFor ext self.backend self.optimization_level
            self.num_transpilations seed_transpiler qc)) circuits_ with
      | Except.error e => Except.error e
      | Except.ok trans_circs =>
        match applyMapomaticStage self ext trans_circs with
        | Except.error e => Except.error e
        | Except.ok trans_circs2 =>
          match applyDDStage self ext dd_passmanager trans_circs2 with
          | Except.error e => Except.error e
          | Except.ok trans_circs3 =>
            match circuits with
            | CircuitsU.single _ =>
              match trans_circs3 with
              | [] => Except.error PipeErr.indexError
              | q :: _ => Except.ok (CircuitsU.single q)
            | CircuitsU.many _ => Except.ok (CircuitsU.many trans_circs3)

/-- State-passing reading of the `transpile` method: the method body of
lines 106-192 assigns no attribute of `self` (every binding is a local),
so the post-call object is the pre-call object. -/
def TranspilerSabreMapomaticDD.transpileS {Dur L : Type}
    (self : TranspilerSabreMapomaticDD Dur) (ext : Externals Dur L)
    (circuits : CircuitsU) :
    Except PipeErr CircuitsU × TranspilerSabreMapomaticDD Dur :=
  (self.transpile ext circuits, self)

/-- The whole pipeline applied to one circuit, with the option defaults
already resolved: repeated-seed selection, then the optional mapomatic
re-layout, then the optional DD padding. -/
def pipelineOne {Dur L : Type} (self : TranspilerSabreMapomaticDD Dur)
    (ext : Externals Dur L) (seed_transpiler : List (Option Int))
    (dd_passmanager : Option (PassManager Dur)) (qc : QuantumCircuit) :
    Except PipeErr QuantumCircuit :=
  match selectBest (resolveCost self)
      (runsFor ext self.backend self.optimization_level
        self.num_transpilations seed_transpiler qc) with
  | Except.error e => Except.error e
  | Except.ok w =>
    match (if self.apply_mapomatic then
        mapomaticStep ext self.backend self.cost_mapomatic w
      else Except.ok w) with
    | Except.error e => Except.error e
    | Except.ok w2 =>
      if self.apply_dd then
        match dd_passmanager with
        | some pm => Except.ok (ext.pass_manager_run pm w2)
        | none => Except.error PipeErr.ddPlanMissing
      else Except.ok w2

/-- The mapomatic branch with the dead first deflation loop (lines 165-168
of `transpiler.py`) removed — the comparison point for the
refinement-equivalence claim. -/
def applyMapomaticStageNoDeadCode {Dur L : Type}
    (self : TranspilerSabreMapomaticDD Dur) (ext : Externals Dur L)
    (trans_circs : List QuantumCircuit) : Except PipeErr (List QuantumCircuit) :=
  if self.apply_mapomatic then
    mapE (mapomaticStep ext self.backend self.cost_mapomatic) trans_circs
  else Except.ok trans_circs

/-- `transpile` with the dead first deflation loop removed. -/
def TranspilerSabreMapomaticDD.transpileNoDeadCode {Dur L : Type}
    (self : TranspilerSabreMapomaticDD Dur) (ext : Externals Dur L)
    (circuits : CircuitsU) : Except PipeErr CircuitsU :=
  let circuits_ : List QuantumCircuit :=
    match circuits with
    | CircuitsU.single qc => [qc]
    | CircuitsU.many qcs => qcs
  match resolveSeeds self with
  | Except.error e => Except.error e
  | Except.ok seed_transpiler =>
    let cost_transpile := resolveCost self
    match resolvePM self with
    | Except.error e => Except.error e
    | Except.ok dd_passmanager =>
      match mapE (fun qc => selectBest cost_transpile
          (runsFor ext self.backend self.optimization_level
            self.num_transpilations seed_transpiler qc)) circuits_ with
      | Except.error e => Except.error e
      | Except.ok trans_circs =>
        match applyMapomaticStageNoDeadCode self ext trans_circs with
        | Except.error e => Except.error e
        | Except.ok trans_circs2 =>
          match applyDDStage self ext dd_passmanager trans_circs2 with
          | Except.error e => Except.error e
          | Except.ok trans_circs3 =>
            match circuits with
            | CircuitsU.single _ =>
              match trans_circs3 with
              | [] => Except.error PipeErr.indexError
              | q :: _ => Except.ok (CircuitsU.single q)
            | CircuitsU.many _ => Except.ok (CircuitsU.many trans_circs3)

/-! ## Helper lemmas -/

theorem mapE_ok_length {α β : Type} {f : α → Except PipeErr β} :
    ∀ {xs : List α} {ys : List β}, mapE f xs = Except.ok ys → ys.length = xs.length := by
  intro xs
  induction xs with
  | nil => intro ys h; simp only [mapE, Except.ok.injEq] at h; simp [← h]
  | cons a as ih =>
    intro ys h
    simp only [mapE] at h
    cases hfa : f a with
    | error e => rw [hfa] at h; exact absurd h (by simp)
    | ok b =>
      rw [hfa] at h
      cases hrest : mapE f as with
      | error e => rw [hrest] at h; exact absurd h (by simp)
      | ok bs =>
        rw [hrest] at h
        simp only [Except.ok.injEq] at h
        simp [← h, ih hrest]

theorem mapE_ok_get {α β : Type} {f : α → Except PipeErr β} :
    ∀ {xs : List α} {ys : List β}, mapE f xs = Except.ok ys →
      ∀ i (h : i < xs.length) (h' : i < ys.length),
        f (xs.get ⟨i, h⟩) = Except.ok (ys.get ⟨i, h'⟩) := by
  intro xs
  induction xs with
  | nil => intro ys _ i h; exact absurd h (by simp)
  | cons a as ih =>
    intro ys hm i h h'
    simp only [mapE] at hm
    cases hfa : f a with
    | error e => rw [hfa] at hm; exact absurd hm (by simp)
    | ok b =>
      rw [hfa] at hm
      cases hrest : mapE f as with
      | error e => rw [hrest] at hm; exact absurd hm (by simp)
      | ok bs =>
        rw [hrest] at hm
        simp only [Except.ok.injEq] at hm
        subst hm
        cases i with
        | zero => simpa using hfa
        | succ n =>
          exact ih hrest n (Nat.lt_of_succ_lt_succ h) (Nat.lt_of_succ_lt_succ h')

theorem zipWith_replicate_take {α β γ : Type} (f : α → β → γ) (a : α) :
    ∀ (n : Nat) (l : List β),
      List.zipWith f (List.replicate n a) l = (l.take n).map (f a) := by
  intro n
  induction n with
  | zero => intro l; simp
  | succ k ih =>
    intro l
    cases l with
    | nil => simp
    | cons b bs => simp [List.replicate_succ, ih]

/-- Specification of `selectBest`: a successful selection returns an element
of the candidate list whose cost is a minimum over all candidates, at the
first position attaining the minimum (every earlier candidate has strictly
larger cost). -/
theorem selectBest_spec (cost : QuantumCircuit → ℚ) (cands : List QuantumCircuit)
    (q : QuantumCircuit) (h : selectBest cost cands = Except.ok q) :
    ∃ j, ∃ hj : j < cands.length, q = cands.get ⟨j, hj⟩ ∧
      (∀ c ∈ cands, cost q ≤ cost c) ∧
      (∀ i (hi : i < cands.length), i < j → cost q < cost (cands.get ⟨i, hi⟩)) := by
  simp only [selectBest] at h
  split at h
  · exact absurd h (by simp)
  · rename_i m hmin
    simp only [Except.ok.injEq] at h
    have hmem : m ∈ cands.map cost :=
      List.min?_mem (fun a b => min_choice a b) hmin
    have hex : ∃ x ∈ cands.map cost, (fun x => decide (x = m)) x :=
      ⟨m, hmem, by simp⟩
    have hbp : (cands.map cost).findIdx (fun x => decide (x = m)) <
        (cands.map cost).length :=
      List.findIdx_lt_length_of_exists hex
    have hlen : (cands.map cost).length = cands.length := List.length_map _ _
    have hj : (cands.map cost).findIdx (fun x => decide (x = m)) < cands.length :=
      hlen ▸ hbp
    have hq : q = cands.get ⟨(cands.map cost).findIdx (fun x => decide (x = m)), hj⟩ := by
      rw [← h, List.getD_eq_getElem?_getD, List.getElem?_eq_getElem hj]
      rfl
    have hcostq : cost q = m := by
      have hfi := @List.findIdx_getElem _ (fun x => decide (x = m))
        (cands.map cost) hbp
      simp only [List.getElem_map, decide_eq_true_eq] at hfi
      rw [hq]
      simpa using hfi
    have hmle : ∀ b ∈ cands.map cost, m ≤ b := by
      intro b hb
      exact (List.le_min?_iff (fun a b c => le_min_iff) hmin).mp (le_refl m) b hb
    refine ⟨(cands.map cost).findIdx (fun x => decide (x = m)), hj, hq, ?_, ?_⟩
    · intro c hc
      rw [hcostq]
      exact hmle (cost c) (List.mem_map_of_mem cost hc)
    · intro i hi hlt
      have hne := @List.not_of_lt_findIdx _ (fun x => decide (x = m))
        (cands.map cost) i hlt
      simp only [List.getElem_map, decide_eq_false_iff_not] at hne
      have hmem' : cost (cands.get ⟨i, hi⟩) ∈ cands.map cost :=
        List.mem_map_of_mem cost (cands.get_mem i hi)
      have := hmle _ hmem'
      rw [hcostq]
      rcases lt_or_eq_of_le this with hlt' | heq
      · exact hlt'
      · exact absurd heq.symm (by simpa using hne)

theorem resolvePM_of_no_dd {Dur : Type} (self : TranspilerSabreMapomaticDD Dur)
    (hd : self.apply_dd = false) : resolvePM self = Except.ok self.dd_passmanager := by
  unfold resolvePM
  rw [hd]

/-! ## Concrete fixtures used by the witnesses -/

/-- A concrete backend over the trivial duration model. -/
def backend0 : IBMQBackend Unit :=
  { instruction_durations := Except.ok (),
    configuration := { timing_constraints := [("pulse_alignment", 16)] } }

/-- Concrete external collaborators: the vendor routine returns a circuit
whose depth is the seed (5 when unseeded), so different seeds give
candidates of different cost. -/
def ext0 : Externals Unit Unit :=
  { compiler_transpile := fun _ _ _ s =>
      { depth := match s with | some n => n.toNat | none => 5, count_ops := [] },
    compiler_transpile_layout := fun qc _ _ => qc,
    deflate_circuit := fun qc => qc,
    matching_layouts := fun _ _ => [()],
    evaluate_layouts := fun _ _ _ _ => [((), 0)],
    pass_manager_run := fun _ qc => qc }

/-- A concrete input circuit. -/
def qc0 : QuantumCircuit := { depth := 4, count_ops := [("cx", 1)] }

/-- A concrete pipeline: three seeded runs. -/
def self0 : TranspilerSabreMapomaticDD Unit :=
  { backend := backend0,
    num_transpilations := 3,
    seed_transpiler := some [some 7, some 3, some 9] }

/-! ## Claims -/

/-- C1: for a valid pipeline (seed precondition satisfied, mapomatic and DD
stages off so the returned circuit is the selected one) and any
`num_transpilations = K ≥ 0`, a successful `transpile` of a single circuit
returns a candidate of the `K`-run candidate list whose cost under the
resolved cost function is ≤ the cost of every one of the candidates, and it
is the candidate of the earliest run attaining that minimum: every earlier
run has strictly larger cost, so selection is deterministic given the cost
function and the seeds. -/
theorem claim1_selection_is_first_minimum {Dur L : Type} (ext : Externals Dur L)
    (self : TranspilerSabreMapomaticDD Dur) (qc q : QuantumCircuit)
    (seeds : List (Option Int))
    (hm : self.apply_mapomatic = false) (hd : self.apply_dd = false)
    (hs : resolveSeeds self = Except.ok seeds)
    (h : self.transpile ext (CircuitsU.single qc) =
      Except.ok (CircuitsU.single q)) :
    (∀ c ∈ runsFor ext self.backend self.optimization_level
        self.num_transpilations seeds qc,
      resolveCost self q ≤ resolveCost self c) ∧
    ∃ j, ∃ hj : j < (runsFor ext self.backend self.optimization_level
        self.num_transpilations seeds qc).length,
      q = (runsFor ext self.backend self.optimization_level
        self.num_transpilations seeds qc).get ⟨j, hj⟩ ∧
      ∀ i (hi : i < (runsFor ext self.backend self.optimization_level
          self.num_transpilations seeds qc).length), i < j →
        resolveCost self q < resolveCost self
          ((runsFor ext self.backend self.optimization_level
            self.num_transpilations seeds qc).get ⟨i, hi⟩) := by
  simp only [TranspilerSabreMapomaticDD.transpile, hs, resolvePM_of_no_dd self hd] at h
  cases hsel : selectBest (resolveCost self)
      (runsFor ext self.backend self.optimization_level
        self.num_transpilations seeds qc) with
  | error e =>
    rw [show (mapE (fun qc => selectBest (resolveCost self)
        (runsFor ext self.backend self.optimization_level
          self.num_transpilations seeds qc)) [qc]) = Except.error e by
      simp [mapE, hsel]] at h
    exact absurd h (by simp)
  | ok w =>
    rw [show (mapE (fun qc => selectBest (resolveCost self)
        (runsFor ext self.backend self.optimization_level
          self.num_transpilations seeds qc)) [qc]) = Except.ok [w] by
      simp [mapE, hsel]] at h
    simp only [applyMapomaticStage, hm, Bool.false_eq_true, if_false,
      applyDDStage, hd, Except.ok.injEq, CircuitsU.single.injEq] at h
    subst h
    obtain ⟨j, hj, hq, hmin, hfirst⟩ := selectBest_spec _ _ _ hsel
    exact ⟨hmin, j, hj, hq, hfirst⟩

/-- Witness for C1: the concrete pipeline `self0` (three runs, seeds 7, 3,
9, candidate depths 7, 3, 9) selects the second run's circuit of depth 3. -/
theorem claim1_witness :
    (∀ c ∈ runsFor ext0 self0.backend self0.optimization_level
        self0.num_transpilations [some 7, some 3, some 9] qc0,
      resolveCost self0 { depth := 3, count_ops := [] } ≤ resolveCost self0 c) ∧
    ∃ j, ∃ hj : j < (runsFor ext0 self0.backend self0.optimization_level
        self0.num_transpilations [some 7, some 3, some 9] qc0).length,
      { depth := 3, count_ops := [] } =
        (runsFor ext0 self0.backend self0.optimization_level
          self0.num_transpilations [some 7, some 3, some 9] qc0).get ⟨j, hj⟩ ∧
      ∀ i (hi : i < (runsFor ext0 self0.backend self0.optimization_level
          self0.num_transpilations [some 7, some 3, some 9] qc0).length), i < j →
        resolveCost self0 { depth := 3, count_ops := [] } < resolveCost self0
          ((runsFor ext0 self0.backend self0.optimization_level
            self0.num_transpilations [some 7, some 3, some 9] qc0).get ⟨i, hi⟩) :=
  claim1_selection_is_first_minimum ext0 self0 qc0 { depth := 3, count_ops := [] }
    [some 7, some 3, some 9] rfl rfl rfl (by
      simp [TranspilerSabreMapomaticDD.transpile, resolveSeeds, resolveCost,
        resolvePM, mapE, selectBest, runsFor, applyMapomaticStage, applyDDStage,
        self0, ext0, qc0, backend0, transpile_cost_depthcnot]
      norm_num [List.findIdx_cons])

/-- Composing the three per-batch stages index-wise: a successful pass
through selection, the optional mapomatic branch and the optional DD loop
produces a list of the same length as the input whose `i`-th element is the
full per-circuit pipeline applied to the `i`-th input circuit. -/
theorem stages_length_get {Dur L : Type} (self : TranspilerSabreMapomaticDD Dur)
    (ext : Externals Dur L) (seeds : List (Option Int))
    (pm : Option (PassManager Dur))
    {qcs ws ws2 ws3 : List QuantumCircuit}
    (h1 : mapE (fun qc => selectBest (resolveCost self)
        (runsFor ext self.backend self.optimization_level
          self.num_transpilations seeds qc)) qcs = Except.ok ws)
    (h2 : applyMapomaticStage self ext ws = Except.ok ws2)
    (h3 : applyDDStage self ext pm ws2 = Except.ok ws3) :
    ws3.length = qcs.length ∧
      ∀ i (h : i < qcs.length) (h' : i < ws3.length),
        pipelineOne self ext seeds pm (qcs.get ⟨i, h⟩) =
          Except.ok (ws3.get ⟨i, h'⟩) := by
  have hlen1 : ws.length = qcs.length := mapE_ok_length h1
  cases hM : self.apply_mapomatic with
  | false =>
    simp only [applyMapomaticStage, hM, Bool.false_eq_true, if_false,
      Except.ok.injEq] at h2
    subst h2
    cases hD : self.apply_dd with
    | false =>
      simp only [applyDDStage, hD, Bool.false_eq_true, if_false,
        Except.ok.injEq] at h3
      subst h3
      refine ⟨hlen1, ?_⟩
      intro i h h'
      have hsel := mapE_ok_get h1 i h (by omega)
      simp only [pipelineOne, hsel, hM, hD, Bool.false_eq_true, if_false]
    | true =>
      simp only [applyDDStage, hD, if_true] at h3
      cases pm with
      | none => exact absurd h3 (by simp)
      | some pm' =>
        simp only [Except.ok.injEq] at h3
        subst h3
        refine ⟨by simp [hlen1], ?_⟩
        intro i h h'
        have hsel := mapE_ok_get h1 i h (by omega)
        simp only [pipelineOne, hsel, hM, hD, Bool.false_eq_true, if_false,
          if_true]
        simp [List.get_eq_getElem, List.getElem_map]
  | true =>
    simp only [applyMapomaticStage, hM, if_true] at h2
    have hlen2 : ws2.length = ws.length := mapE_ok_length h2
    cases hD : self.apply_dd with
    | false =>
      simp only [applyDDStage, hD, Bool.false_eq_true, if_false,
        Except.ok.injEq] at h3
      subst h3
      refine ⟨by omega, ?_⟩
      intro i h h'
      have hsel := mapE_ok_get h1 i h (by omega)
      have hstep := mapE_ok_get h2 i (by omega) (by omega)
      simp only [pipelineOne, hsel, hM, hD, if_true, Bool.false_eq_true,
        if_false]
      rw [show (ws.get ⟨i, by omega⟩) = (ws.get ⟨i, by omega⟩) from rfl] at hstep
      simp only [hstep]
    | true =>
      simp only [applyDDStage, hD, if_true] at h3
      cases pm with
      | none => exact absurd h3 (by simp)
      | some pm' =>
        simp only [Except.ok.injEq] at h3
        subst h3
        refine ⟨by simp; omega, ?_⟩
        intro i h h'
        have hsel := mapE_ok_get h1 i h (by omega)
        have hstep := mapE_ok_get h2 i (by omega) (by omega)
        simp only [pipelineOne, hsel, hM, hD, if_true]
        simp only [hstep]
        simp [List.get_eq_getElem, List.getElem_map]

/-- C2: the output shape of `transpile` mirrors the input shape: a single
(non-list) circuit input yields a single circuit; a list input of length `N`
yields a list of length `N` whose `i`-th element is the transpilation (the
full per-circuit pipeline) of the `i`-th input circuit, order preserved;
`transpile` never changes arity. -/
theorem claim2_shape_mirrors_input {Dur L : Type} (ext : Externals Dur L)
    (self : TranspilerSabreMapomaticDD Dur) :
    (∀ (qc : QuantumCircuit) (r : CircuitsU),
      self.transpile ext (CircuitsU.single qc) = Except.ok r →
      ∃ q, r = CircuitsU.single q) ∧
    (∀ (qcs : List QuantumCircuit) (r : CircuitsU),
      self.transpile ext (CircuitsU.many qcs) = Except.ok r →
      ∃ qs, r = CircuitsU.many qs ∧ qs.length = qcs.length ∧
        ∃ seeds pm, resolveSeeds self = Except.ok seeds ∧
          resolvePM self = Except.ok pm ∧
          ∀ i (h : i < qcs.length) (h' : i < qs.length),
            pipelineOne self ext seeds pm (qcs.get ⟨i, h⟩) =
              Except.ok (qs.get ⟨i, h'⟩)) := by
  constructor
  · intro qc r h
    simp only [TranspilerSabreMapomaticDD.transpile] at h
    cases hs : resolveSeeds self with
    | error e => simp only [hs] at h; exact absurd h (by simp)
    | ok seeds =>
      simp only [hs] at h
      cases hp : resolvePM self with
      | error e => simp only [hp] at h; exact absurd h (by simp)
      | ok pm =>
        simp only [hp] at h
        cases h1 : mapE (fun qc => selectBest (resolveCost self)
            (runsFor ext self.backend self.optimization_level
              self.num_transpilations seeds qc)) [qc] with
        | error e => simp only [h1] at h; exact absurd h (by simp)
        | ok ws =>
          simp only [h1] at h
          cases h2 : applyMapomaticStage self ext ws with
          | error e => simp only [h2] at h; exact absurd h (by simp)
          | ok ws2 =>
            simp only [h2] at h
            cases h3 : applyDDStage self ext pm ws2 with
            | error e => simp only [h3] at h; exact absurd h (by simp)
            | ok ws3 =>
              simp only [h3] at h
              cases ws3 with
              | nil => exact absurd h (by simp)
              | cons q rest =>
                simp only [Except.ok.injEq] at h
                exact ⟨q, h.symm⟩
  · intro qcs r h
    simp only [TranspilerSabreMapomaticDD.transpile] at h
    cases hs : resolveSeeds self with
    | error e => simp only [hs] at h; exact absurd h (by simp)
    | ok seeds =>
      simp only [hs] at h
      cases hp : resolvePM self with
      | error e => simp only [hp] at h; exact absurd h (by simp)
      | ok pm =>
        simp only [hp] at h
        cases h1 : mapE (fun qc => selectBest (resolveCost self)
            (runsFor ext self.backend self.optimization_level
              self.num_transpilations seeds qc)) qcs with
        | error e => simp only [h1] at h; exact absurd h (by simp)
        | ok ws =>
          simp only [h1] at h
          cases h2 : applyMapomaticStage self ext ws with
          | error e => simp only [h2] at h; exact absurd h (by simp)
          | ok ws2 =>
            simp only [h2] at h
            cases h3 : applyDDStage self ext pm ws2 with
            | error e => simp only [h3] at h; exact absurd h (by simp)
            | ok ws3 =>
              simp only [h3] at h
              simp only [Except.ok.injEq] at h
              obtain ⟨hlen, hget⟩ := stages_length_get self ext seeds pm h1 h2 h3
              exact ⟨ws3, h.symm, hlen, seeds, pm, rfl, rfl, hget⟩

/-- Witness for C2 (list part): the concrete pipeline `self0` on the
one-element batch `[qc0]` returns the one-element batch holding the selected
depth-3 circuit. -/
theorem claim2_witness :
    ∃ qs, (CircuitsU.many [{ depth := 3, count_ops := [] }] : CircuitsU) =
        CircuitsU.many qs ∧ qs.length = [qc0].length ∧
      ∃ seeds pm, resolveSeeds self0 = Except.ok seeds ∧
        resolvePM self0 = Except.ok pm ∧
        ∀ i (h : i < [qc0].length) (h' : i < qs.length),
          pipelineOne self0 ext0 seeds pm ([qc0].get ⟨i, h⟩) =
            Except.ok (qs.get ⟨i, h'⟩) :=
  (claim2_shape_mirrors_input ext0 self0).2 [qc0]
    (CircuitsU.many [{ depth := 3, count_ops := [] }]) (by
      simp [TranspilerSabreMapomaticDD.transpile, resolveSeeds, resolveCost,
        resolvePM, mapE, selectBest, runsFor, applyMapomaticStage, applyDDStage,
        self0, ext0, qc0, backend0, transpile_cost_depthcnot]
      norm_num [List.findIdx_cons])

/-- C3: when `seed_transpiler` is supplied and strictly shorter than
`num_transpilations`, `transpile` fails with the precondition violation
(the `assert`, an `AssertionError`) for every input and every behaviour of
the external collaborators — so no vendor transpile attempt can have been
invoked — and, the method body assigning no attribute, the pipeline object
after the call is the pipeline object before it. -/
theorem claim3_short_seed_list_fails_fast {Dur L : Type}
    (self : TranspilerSabreMapomaticDD Dur) (seeds : List (Option Int))
    (hseed : self.seed_transpiler = some seeds)
    (hshort : seeds.length < self.num_transpilations) :
    ∀ (ext : Externals Dur L) (circuits : CircuitsU),
      self.transpile ext circuits = Except.error PipeErr.assertionError ∧
      (self.transpileS ext circuits).2 = self := by
  intro ext circuits
  have hs : resolveSeeds self = Except.error PipeErr.assertionError := by
    unfold resolveSeeds
    simp only [hseed]
    rw [if_neg (by omega)]
  refine ⟨?_, rfl⟩
  simp only [TranspilerSabreMapomaticDD.transpile, hs]

/-- Witness for C3: a pipeline asking for 2 transpilations but supplying
only one seed fails with the assertion error. -/
theorem claim3_witness :
    TranspilerSabreMapomaticDD.transpile
        { backend := backend0, num_transpilations := 2,
          seed_transpiler := some [some 1] } ext0 (CircuitsU.single qc0) =
      Except.error PipeErr.assertionError ∧
    (TranspilerSabreMapomaticDD.transpileS
        { backend := backend0, num_transpilations := 2,
          seed_transpiler := some [some 1] } ext0 (CircuitsU.single qc0)).2 =
      { backend := backend0, num_transpilations := 2,
        seed_transpiler := some [some 1] } :=
  claim3_short_seed_list_fails_fast
    { backend := backend0, num_transpilations := 2,
      seed_transpiler := some [some 1] }
    [some 1] rfl (by decide) ext0 (CircuitsU.single qc0)

/-- C4: when a seed list of length ≥ `num_transpilations = K` is supplied,
the precondition check passes and the repeated-seed step performs exactly
`K` vendor runs, run `i` using exactly the `i`-th entry of the seed list
(entries beyond the first `K` are ignored, the candidate list having
exactly `K` elements); when no seed list is supplied, every one of the `K`
runs uses no explicit seed. -/
theorem claim4_seed_usage {Dur L : Type} (ext : Externals Dur L)
    (self : TranspilerSabreMapomaticDD Dur) (qc : QuantumCircuit) :
    (∀ seeds, self.seed_transpiler = some seeds →
      seeds.length ≥ self.num_transpilations →
      resolveSeeds self = Except.ok seeds ∧
      runsFor ext self.backend self.optimization_level
          self.num_transpilations seeds qc =
        (seeds.take self.num_transpilations).map
          (fun s => ext.compiler_transpile qc self.backend
            self.optimization_level s) ∧
      (runsFor ext self.backend self.optimization_level
          self.num_transpilations seeds qc).length =
        self.num_transpilations) ∧
    (self.seed_transpiler = none →
      resolveSeeds self =
        Except.ok (List.replicate self.num_transpilations none) ∧
      runsFor ext self.backend self.optimization_level self.num_transpilations
          (List.replicate self.num_transpilations none) qc =
        List.replicate self.num_transpilations
          (ext.compiler_transpile qc self.backend
            self.optimization_level none)) := by
  constructor
  · intro seeds hseed hge
    refine ⟨by unfold resolveSeeds; simp only [hseed]; rw [if_pos hge], ?_, ?_⟩
    · exact zipWith_replicate_take _ qc self.num_transpilations seeds
    · unfold runsFor
      rw [zipWith_replicate_take _ qc self.num_transpilations seeds]
      simp [List.length_take]
      omega
  · intro hnone
    refine ⟨by unfold resolveSeeds; simp only [hnone], ?_⟩
    unfold runsFor
    rw [zipWith_replicate_take _ qc self.num_transpilations
      (List.replicate self.num_transpilations none)]
    rw [List.take_replicate, Nat.min_self, List.map_replicate]

/-- Witness for C4: the concrete pipeline `self0` (3 requested runs, seed
list of length 3): the seed check passes and the three candidates are the
vendor outputs at seeds 7, 3, 9. -/
theorem claim4_witness :
    resolveSeeds self0 = Except.ok [some 7, some 3, some 9] ∧
    runsFor ext0 self0.backend self0.optimization_level
        self0.num_transpilations [some 7, some 3, some 9] qc0 =
      ([some 7, some 3, some 9].take self0.num_transpilations).map
        (fun s => ext0.compiler_transpile qc0 self0.backend
          self0.optimization_level s) ∧
    (runsFor ext0 self0.backend self0.optimization_level
        self0.num_transpilations [some 7, some 3, some 9] qc0).length =
      self0.num_transpilations :=
  (claim4_seed_usage ext0 self0 qc0).1 [some 7, some 3, some 9] rfl (by decide)

/-- C5: the default cost function returns
`weight_depth * depth + weight_cnot * (number of cx gates)`, the cx count
being zero when the circuit records no `cx` gate, with default weights 1.0
and 20.0; in particular a two-qubit circuit of depth 2 with exactly two cx
gates costs 42.0 under the defaults.  The function is total (pure, no
failure). -/
theorem claim5_default_cost_formula :
    transpile_cost_depthcnot { depth := 2, count_ops := [("cx", 2)] } = 42 ∧
    (∀ (qc : QuantumCircuit) (weight_depth weight_cnot : ℚ),
      transpile_cost_depthcnot qc weight_depth weight_cnot =
        weight_depth * qc.depth +
          weight_cnot * ((qc.count_ops.lookup "cx").getD 0)) ∧
    (∀ (qc : QuantumCircuit) (weight_depth weight_cnot : ℚ),
      qc.count_ops.lookup "cx" = none →
      transpile_cost_depthcnot qc weight_depth weight_cnot =
        weight_depth * qc.depth) := by
  refine ⟨?_, ?_, ?_⟩
  · simp only [transpile_cost_depthcnot, List.lookup]
    norm_num
  · intro qc wd wc
    unfold transpile_cost_depthcnot
    cases h : qc.count_ops.lookup "cx" <;> simp [h]
  · intro qc wd wc h
    unfold transpile_cost_depthcnot
    simp [h]

/-- Witness for C5: a depth-3 circuit with no cx entry costs
`weight_depth * 3` for weights 2 and 5. -/
theorem claim5_witness :
    transpile_cost_depthcnot { depth := 3, count_ops := [] } 2 5 =
      2 * (({ depth := 3, count_ops := [] } : QuantumCircuit).depth : ℚ) :=
  claim5_default_cost_formula.2.2 { depth := 3, count_ops := [] } 2 5 rfl

/-- On a backend with a working duration lookup and a `pulse_alignment`
key, `get_pass_manager` returns the two-stage ALAP + XX-padding plan. -/
theorem get_pass_manager_ok {Dur : Type}
    (self : PassManager_DD_ALAP_XX Dur) (durations : Dur)
    (pulse_alignment : Nat)
    (hdur : InstructionDurations.from_backend self.backend =
      Except.ok durations)
    (halign : self.backend.configuration.timing_constraints.lookup
        "pulse_alignment" = some pulse_alignment) :
    self.get_pass_manager = Except.ok
      { passes := [TranspilerPass.ALAPScheduleAnalysis durations,
                   TranspilerPass.PadDynamicalDecoupling durations
                     [Gate.XGate, Gate.XGate] pulse_alignment] } := by
  unfold PassManager_DD_ALAP_XX.get_pass_manager
  simp only [hdur, halign]

/-- C6: for every backend whose duration-model lookup succeeds and whose
configuration has a `pulse_alignment` timing constraint,
`get_pass_manager` returns the pipeline of exactly two stages in order —
ALAP schedule analysis from the backend's instruction durations, then
dynamical-decoupling padding — whose decoupling sequence is exactly two X
gates and whose pulse alignment is the configuration's value. -/
theorem claim6_pass_manager_structure {Dur : Type}
    (self : PassManager_DD_ALAP_XX Dur) (durations : Dur)
    (pulse_alignment : Nat)
    (hdur : InstructionDurations.from_backend self.backend =
      Except.ok durations)
    (halign : self.backend.configuration.timing_constraints.lookup
        "pulse_alignment" = some pulse_alignment) :
    self.get_pass_manager = Except.ok
      { passes := [TranspilerPass.ALAPScheduleAnalysis durations,
                   TranspilerPass.PadDynamicalDecoupling durations
                     [Gate.XGate, Gate.XGate] pulse_alignment] } :=
  get_pass_manager_ok self durations pulse_alignment hdur halign

/-- Witness for C6: the concrete backend `backend0` (trivial duration
model, pulse alignment 16) yields exactly the ALAP + XX-padding pipeline. -/
theorem claim6_witness :
    PassManager_DD_ALAP_XX.get_pass_manager { backend := backend0 } =
      Except.ok
        { passes := [TranspilerPass.ALAPScheduleAnalysis (),
                     TranspilerPass.PadDynamicalDecoupling ()
                       [Gate.XGate, Gate.XGate] 16] } :=
  claim6_pass_manager_structure { backend := backend0 } () 16 rfl rfl

/-- C8: for every backend that validly provides a duration model and a
`pulse_alignment` timing constraint, `get_pass_manager` raises no error and
returns a plan; its only failure paths are a failing duration-model lookup,
whose error is propagated to the caller unchanged, and a missing
`pulse_alignment` key, which raises the `KeyError`. -/
theorem claim8_get_pass_manager_error_paths {Dur : Type}
    (self : PassManager_DD_ALAP_XX Dur) :
    (∀ (durations : Dur) (pulse_alignment : Nat),
      InstructionDurations.from_backend self.backend = Except.ok durations →
      self.backend.configuration.timing_constraints.lookup "pulse_alignment" =
        some pulse_alignment →
      ∃ pm, self.get_pass_manager = Except.ok pm) ∧
    (∀ e, InstructionDurations.from_backend self.backend = Except.error e →
      self.get_pass_manager = Except.error e) ∧
    (∀ (durations : Dur),
      InstructionDurations.from_backend self.backend = Except.ok durations →
      self.backend.configuration.timing_constraints.lookup "pulse_alignment" =
        none →
      self.get_pass_manager = Except.error "KeyError: pulse_alignment") := by
  refine ⟨?_, ?_, ?_⟩
  · intro durations pulse_alignment hdur halign
    exact ⟨_, get_pass_manager_ok self durations pulse_alignment hdur halign⟩
  · intro e hdur
    unfold PassManager_DD_ALAP_XX.get_pass_manager
    simp only [hdur]
  · intro durations hdur halign
    unfold PassManager_DD_ALAP_XX.get_pass_manager
    simp only [hdur, halign]

/-- Witness for C8: the valid concrete backend `backend0` yields a plan. -/
theorem claim8_witness :
    ∃ pm, PassManager_DD_ALAP_XX.get_pass_manager
        ({ backend := backend0 } : PassManager_DD_ALAP_XX Unit) =
      Except.ok pm :=
  (claim8_get_pass_manager_error_paths { backend := backend0 }).1 () 16 rfl rfl

/-- C9: the first deflation loop of the mapomatic branch (building the
`deflated` list, `transpiler.py` lines 165-168) has no effect on the
result: `transpile` equals the variant with that loop removed, on every
pipeline, every collection of external collaborators and every input,
because the layout-selection loop independently re-deflates each working
circuit. -/
theorem claim9_first_deflation_loop_is_dead_code {Dur L : Type}
    (self : TranspilerSabreMapomaticDD Dur) (ext : Externals Dur L)
    (circuits : CircuitsU) :
    self.transpile ext circuits = self.transpileNoDeadCode ext circuits := rfl

/-- When `apply_dd` is set, a successful `resolvePM` always yields an
actual plan (never `none`): the lazy build fills the local variable. -/
theorem resolvePM_some_of_dd {Dur : Type}
    (self : TranspilerSabreMapomaticDD Dur) {pmo : Option (PassManager Dur)}
    (hdd : self.apply_dd = true) (hp : resolvePM self = Except.ok pmo) :
    ∃ pm, pmo = some pm := by
  unfold resolvePM at hp
  cases hdp : self.dd_passmanager with
  | none =>
    simp only [hdd, hdp] at hp
    cases hb : PassManager_DD_ALAP_XX.get_pass_manager
        { backend := self.backend } with
    | error msg => simp only [hb] at hp; exact absurd hp (by simp)
    | ok pm =>
      simp only [hb, Except.ok.injEq] at hp
      exact ⟨pm, hp.symm⟩
  | some pm =>
    simp only [hdd, hdp, Except.ok.injEq] at hp
    exact ⟨pm, hp.symm⟩

/-- C7: when `apply_dd` is set and no pass manager was supplied at
construction, a `transpile` call resolves exactly one decoupling plan — the
one built from the pipeline's current backend — applies that same plan to
every circuit of the batch, and behaves exactly as if that plan had been
supplied at construction; the pipeline object itself is unchanged by the
call (the build is not cached on it), so a later call resolves the plan
again from the then-current backend. -/
theorem claim7_dd_plan_built_once_not_cached {Dur L : Type}
    (self : TranspilerSabreMapomaticDD Dur) (ext : Externals Dur L)
    (pm : PassManager Dur) (circuits : CircuitsU)
    (hdd : self.apply_dd = true) (hnone : self.dd_passmanager = none)
    (hbuild : PassManager_DD_ALAP_XX.get_pass_manager
        { backend := self.backend } = Except.ok pm) :
    resolvePM self = Except.ok (some pm) ∧
    (∀ trans_circs, applyDDStage self ext (some pm) trans_circs =
      Except.ok (trans_circs.map (ext.pass_manager_run pm))) ∧
    self.transpile ext circuits =
      TranspilerSabreMapomaticDD.transpile
        { self with dd_passmanager := some pm } ext circuits ∧
    (self.transpileS ext circuits).2 = self := by
  have h1 : resolvePM self = Except.ok (some pm) := by
    unfold resolvePM
    simp only [hdd, hnone, hbuild]
  have h1' : resolvePM { self with dd_passmanager := some pm } =
      Except.ok (some pm) := by
    unfold resolvePM
    simp only [hdd]
  refine ⟨h1, ?_, ?_, rfl⟩
  · intro trans_circs
    unfold applyDDStage
    rw [hdd]
    simp
  · simp only [TranspilerSabreMapomaticDD.transpile, h1, h1']
    rfl

/-- Fixture: the plan built from `backend0`. -/
def pm0 : PassManager Unit :=
  { passes := [TranspilerPass.ALAPScheduleAnalysis (),
               TranspilerPass.PadDynamicalDecoupling ()
                 [Gate.XGate, Gate.XGate] 16] }

/-- Fixture: a pipeline over `backend0` with DD requested and no plan
supplied. -/
def selfDD : TranspilerSabreMapomaticDD Unit :=
  { backend := backend0, apply_dd := true }

/-- Witness for C7: on the concrete DD pipeline `selfDD`, the lazily built
plan is `pm0`, it is applied to every circuit of a batch, the call equals
the call with `pm0` supplied at construction, and the pipeline object is
unchanged. -/
theorem claim7_witness :
    resolvePM selfDD = Except.ok (some pm0) ∧
    (∀ trans_circs, applyDDStage selfDD ext0 (some pm0) trans_circs =
      Except.ok (trans_circs.map (ext0.pass_manager_run pm0))) ∧
    selfDD.transpile ext0 (CircuitsU.single qc0) =
      TranspilerSabreMapomaticDD.transpile
        { selfDD with dd_passmanager := some pm0 } ext0
        (CircuitsU.single qc0) ∧
    (selfDD.transpileS ext0 (CircuitsU.single qc0)).2 = selfDD :=
  claim7_dd_plan_built_once_not_cached selfDD ext0 pm0
    (CircuitsU.single qc0) rfl rfl rfl

/-- On the empty batch every stage succeeds with the empty list. -/
theorem transpile_nil_ok {Dur L : Type} (ext : Externals Dur L)
    (self : TranspilerSabreMapomaticDD Dur) {seeds : List (Option Int)}
    {pmo : Option (PassManager Dur)}
    (hs : resolveSeeds self = Except.ok seeds)
    (hp : resolvePM self = Except.ok pmo) :
    self.transpile ext (CircuitsU.many []) = Except.ok (CircuitsU.many []) := by
  have hMM : applyMapomaticStage self ext [] = Except.ok [] := by
    unfold applyMapomaticStage
    split
    · rfl
    · rfl
  have hDD : applyDDStage self ext pmo [] = Except.ok [] := by
    unfold applyDDStage
    cases hD : self.apply_dd with
    | false => simp [hD]
    | true =>
      obtain ⟨pm, rfl⟩ := resolvePM_some_of_dd self hD hp
      simp [hD]
  simp only [TranspilerSabreMapomaticDD.transpile, hs, hp,
    show mapE (fun qc => selectBest (resolveCost self)
        (runsFor ext self.backend self.optimization_level
          self.num_transpilations seeds qc)) ([] : List QuantumCircuit) =
      Except.ok [] from rfl, hMM, hDD]

/-- C10: for the empty-list input, `transpile` returns the empty list; the
result is entirely independent of the external collaborators (no vendor
run, no layout matching, no plan application happens for any circuit); yet
when `apply_dd` is set and no plan was supplied, the decoupling plan is
still built from the backend even for the empty batch — a failing build
fails the call. -/
theorem claim10_empty_batch {Dur L : Type} (ext : Externals Dur L)
    (self : TranspilerSabreMapomaticDD Dur) (seeds : List (Option Int))
    (hs : resolveSeeds self = Except.ok seeds) :
    (∀ pmo, resolvePM self = Except.ok pmo →
      self.transpile ext (CircuitsU.many []) =
        Except.ok (CircuitsU.many [])) ∧
    (∀ e, resolvePM self = Except.error e →
      self.transpile ext (CircuitsU.many []) = Except.error e) ∧
    (self.apply_dd = true → self.dd_passmanager = none →
      self.transpile ext (CircuitsU.many []) =
        (match PassManager_DD_ALAP_XX.get_pass_manager
            { backend := self.backend } with
        | Except.ok _ => Except.ok (CircuitsU.many [])
        | Except.error msg => Except.error (PipeErr.externalError msg))) ∧
    (∀ ext' : Externals Dur L,
      self.transpile ext' (CircuitsU.many []) =
        self.transpile ext (CircuitsU.many [])) := by
  refine ⟨?_, ?_, ?_, ?_⟩
  · intro pmo hp
    exact transpile_nil_ok ext self hs hp
  · intro e hp
    simp only [TranspilerSabreMapomaticDD.transpile, hs, hp]
  · intro hdd hnone
    have hrpm : resolvePM self =
        (match PassManager_DD_ALAP_XX.get_pass_manager
            { backend := self.backend } with
        | Except.error msg => Except.error (PipeErr.externalError msg)
        | Except.ok pm => Except.ok (some pm)) := by
      unfold resolvePM
      simp only [hdd, hnone]
    cases hb : PassManager_DD_ALAP_XX.get_pass_manager
        { backend := self.backend } with
    | error msg =>
      simp only [hb] at hrpm
      simp only [TranspilerSabreMapomaticDD.transpile, hs, hrpm]
    | ok pm =>
      simp only [hb] at hrpm
      exact transpile_nil_ok ext self hs hrpm
  · intro ext'
    cases hp : resolvePM self with
    | error e =>
      simp only [TranspilerSabreMapomaticDD.transpile, hs, hp]
    | ok pmo =>
      rw [transpile_nil_ok ext self hs hp, transpile_nil_ok ext' self hs hp]

/-- Witness for C10: the concrete DD pipeline `selfDD` on the empty batch
returns the empty batch (having still built `pm0` from the backend). -/
theorem claim10_witness :
    selfDD.transpile ext0 (CircuitsU.many []) =
      Except.ok (CircuitsU.many []) :=
  (claim10_empty_batch ext0 selfDD [none] rfl).1 (some pm0) rfl
